import Mathlib

/-!
Verification of the flash-sale engine (chhavx1618/concurrency-flash-sale).

Shallow embedding of the purchase-attempt pipeline: the Redis-backed atomic
inventory operation (`luaScript` in `cmd/server/main.go`, here `tryDecrement`),
the purchase engine (`handlePurchaseAttempt`), the TLV frame codec
(`readFrame` / `writeFrame`), the per-connection dispatch (`processMessage`,
one iteration of `handleConnection`), and the administrative operations
(`initProduct`, `resetProduct`, `listBuyers` from `cmd/setup/main.go`).

Bytes are modelled as `Nat` (values < 256 where the code produces them),
Go `int64` values as `Int`. The Redis store is modelled per product:
a product's state is its stock key (absent = `none`, mirroring `GET`
returning nil so that Lua's `tonumber` yields nil) and its buyers list.
Redis executes a Lua script atomically, so every concurrent history of
purchase attempts linearizes to a sequence of `tryDecrement` steps; runs
of such steps are modelled by `runDecrements` / `runAttempts`.
-/

set_option autoImplicit false

namespace FlashSale

/-- Message type byte `MSG_ATTEMPT_PURCHASE byte = 0x01`. -/
def MSG_ATTEMPT_PURCHASE : Nat := 0x01

/-- Response status `STATUS_SUCCESS = "SUCCESS"`. -/
def STATUS_SUCCESS : String := "SUCCESS"

/-- Response status `STATUS_SOLD_OUT = "SOLD_OUT"`. -/
def STATUS_SOLD_OUT : String := "SOLD_OUT"

/-- Response status `STATUS_ERROR = "ERROR"`. -/
def STATUS_ERROR : String := "ERROR"

/-- Go `PurchaseRequest{ProductID, UserID}` (fields `product_id`, `user_id`). -/
structure PurchaseRequest where
  productID : String
  userID : String
deriving Repr, DecidableEq

/-- Go `PurchaseResponse{Status, RemainingStock, Error}`. The zero values of
the unset fields in Go composite literals are `0` and `""`. -/
structure PurchaseResponse where
  status : String
  remainingStock : Int := 0
  error : String := ""
deriving Repr, DecidableEq

/-- The per-product slice of the Redis store: the value of
`product:{id}:stock` (`none` when the key is absent, so `tonumber(GET ...)`
is nil) and the list `product:{id}:buyers` in Redis order (head = most
recently `LPUSH`ed element, the order `LRANGE key 0 -1` reports). -/
structure ProductState where
  stock : Option Int
  buyers : List String
deriving Repr, DecidableEq

/-- The whole store, keyed by product id (the key strings
`product:{id}:stock` / `product:{id}:buyers` are both derived injectively
from the product id, so the state per product id is the faithful view). -/
def Store := String → ProductState

/-- A Redis instance with no keys: `GET` returns nil and `LRANGE` returns
the empty list for every product. -/
def emptyStore : Store := fun _ => { stock := none, buyers := [] }

/-- The Lua script `luaScript` (server `main.go`), executed atomically by
Redis on the keys of one product — the spec's
`AtomicInventoryStore.tryDecrement`:

```
local stock = tonumber(redis.call("GET", KEYS[1]))
if stock and stock > 0 then
    redis.call("DECR", KEYS[1])
    redis.call("LPUSH", KEYS[2], ARGV[1])
    return {1, stock - 1}
else
    return {0, 0}
end
```

Returns the pair the script returns (`{1, stock-1}` or `{0, 0}`) together
with the product state after the script ran. `LPUSH` prepends the user id
to the buyers list; in the else branch the script performs no writes, so
the state is returned untouched. -/
def tryDecrement (st : ProductState) (userId : String) : (Int × Int) × ProductState :=
  match st.stock with
  | some stock =>
      if stock > 0 then
        ((1, stock - 1), { stock := some (stock - 1), buyers := userId :: st.buyers })
      else
        ((0, 0), st)
  | none => ((0, 0), st)

/-- Evaluation (`EvalSha`) of the Lua script against the full store: runs `tryDecrement`
on the product's keys. When the script took its else branch it wrote
nothing, so the store is returned untouched. -/
def evalTryDecrement (store : Store) (productID userID : String) :
    (Int × Int) × Store :=
  let r := tryDecrement (store productID) userID
  (r.1, if r.1.1 = 1 then Function.update store productID r.2 else store)

/-- The purchase engine on an already-decoded request (`handlePurchaseAttempt`
after `json.Unmarshal`, the spec's `attemptPurchase`): validate the two
fields, execute the atomic script, and map `success == 1` to `SUCCESS`
with the returned remaining stock, otherwise `SOLD_OUT`. -/
def attemptPurchase (store : Store) (req : PurchaseRequest) :
    PurchaseResponse × Store :=
  if req.productID = "" ∨ req.userID = "" then
    ({ status := STATUS_ERROR, error := "missing product_id or user_id" }, store)
  else
    let r := evalTryDecrement store req.productID req.userID
    if r.1.1 = 1 then
      ({ status := STATUS_SUCCESS, remainingStock := r.1.2 }, r.2)
    else
      ({ status := STATUS_SOLD_OUT }, r.2)

/-- Serialization (`json.Marshal`) of a `PurchaseResponse`: fields in struct order, the
string field values used by the server contain no characters needing JSON
escaping, `remaining_stock` and `error` both carry `omitempty`, so they are
omitted at their zero values `0` and `""`. -/
def marshalResponse (r : PurchaseResponse) : String :=
  "\x7b\"status\":\"" ++ r.status ++ "\""
    ++ (if r.remainingStock = 0 then ""
        else ",\"remaining_stock\":" ++ toString r.remainingStock)
    ++ (if r.error = "" then "" else ",\"error\":\"" ++ r.error ++ "\"")
    ++ "\x7d"

/-- The UTF-8 bytes of a string, as the `[]byte` the server writes. -/
def strBytes (s : String) : List Nat :=
  s.toUTF8.toList.map (fun b => b.toNat)

/-- Whether the character sequence `pat` occurs contiguously inside `s`. -/
def containsPat (s pat : List Char) : Bool :=
  match s with
  | [] => pat.isEmpty
  | _ :: t => pat.isPrefixOf s || containsPat t pat

/-- Go `handlePurchaseAttempt` on the raw frame payload, parameterized by the
behaviour of `json.Unmarshal` into a `PurchaseRequest` (`none` = the payload
is not valid JSON for the request shape → `ERROR{"invalid json"}`). Returns
the marshalled response bytes and the store after the attempt. -/
def handlePurchaseAttempt (unmarshal : List Nat → Option PurchaseRequest)
    (store : Store) (payload : List Nat) : List Nat × Store :=
  match unmarshal payload with
  | none => (strBytes (marshalResponse { status := STATUS_ERROR, error := "invalid json" }), store)
  | some req =>
      let r := attemptPurchase store req
      (strBytes (marshalResponse r.1), r.2)

/-- Go `processMessage`: dispatch on the type byte; `0x01` goes to the purchase
handler, anything else yields `ERROR{"unknown message type"}` and leaves the
store alone. -/
def processMessage (unmarshal : List Nat → Option PurchaseRequest)
    (store : Store) (msgType : Nat) (payload : List Nat) : List Nat × Store :=
  if msgType = MSG_ATTEMPT_PURCHASE then
    handlePurchaseAttempt unmarshal store payload
  else
    (strBytes (marshalResponse { status := STATUS_ERROR, error := "unknown message type" }),
     store)

/-- Errors of `readFrame`: a short read (`io.ReadFull` hits EOF /
disconnect) or the declared-length check `length > 1024*1024` failing
(`fmt.Errorf("payload too large: %d", length)`). -/
inductive FrameError where
  | shortRead : FrameError
  | payloadTooLarge : Nat → FrameError
deriving Repr, DecidableEq

/-- Go `binary.BigEndian.Uint32` of four bytes. -/
def decodeBE32 (b0 b1 b2 b3 : Nat) : Nat :=
  ((b0 * 256 + b1) * 256 + b2) * 256 + b3

/-- Go `binary.BigEndian.PutUint32`: the four big-endian bytes of `n % 2^32`. -/
def be32 (n : Nat) : List Nat :=
  [n / 16777216 % 256, n / 65536 % 256, n / 256 % 256, n % 256]

/-- Go `readFrame` on the connection's incoming byte stream: read 1 type byte,
4 length bytes (big-endian), reject a declared length over 1 MiB before
reading the payload, then read exactly `length` payload bytes. Returns the
type, the payload and the unconsumed rest of the stream. -/
def readFrame (stream : List Nat) :
    Except FrameError (Nat × List Nat × List Nat) :=
  match stream with
  | t :: b0 :: b1 :: b2 :: b3 :: rest =>
      let length := decodeBE32 b0 b1 b2 b3
      if length > 1024 * 1024 then
        .error (.payloadTooLarge length)
      else if rest.length < length then
        .error .shortRead
      else
        .ok (t, rest.take length, rest.drop length)
  | _ => .error .shortRead

/-- Go `writeFrame`: `[type(1B)][uint32(len(payload)) big-endian][payload]`. -/
def writeFrame (msgType : Nat) (payload : List Nat) : List Nat :=
  msgType :: be32 (payload.length % 4294967296) ++ payload

/-- Outcome of one iteration of the `handleConnection` loop: the handler
returned (connection closed, nothing written), or it wrote a response frame
and loops on the rest of the input. -/
inductive ConnResult where
  | closed : ConnResult
  | replied : List Nat → List Nat → ConnResult
deriving Repr, DecidableEq

/-- One iteration of the `handleConnection` read→process→write loop. On any
`readFrame` error the handler returns, closing the connection without
writing a response; otherwise it processes the message and writes one
response frame carrying the request's type byte, then continues with the
unconsumed input. -/
def handleConnection (unmarshal : List Nat → Option PurchaseRequest)
    (store : Store) (input : List Nat) : ConnResult × Store :=
  match readFrame input with
  | .error _ => (.closed, store)
  | .ok (msgType, payload, rest) =>
      let r := processMessage unmarshal store msgType payload
      (.replied (writeFrame msgType r.1) rest, r.2)

/-- Admin `initProduct` (`cmd/setup/main.go`): `SET` the stock key and `DEL`
the buyers key. -/
def initProduct (store : Store) (productID : String) (stock : Int) : Store :=
  Function.update store productID { stock := some stock, buyers := [] }

/-- Admin `resetProduct`: `DEL` both keys. -/
def resetProduct (store : Store) (productID : String) : Store :=
  Function.update store productID { stock := none, buyers := [] }

/-- Admin `showBuyers` / the spec's `list_buyers`: `LRANGE buyersKey 0 -1`,
the whole Redis list front to back. -/
def listBuyers (store : Store) (productID : String) : List String :=
  (store productID).buyers

/-- A linearized history of atomic purchase attempts against one product:
the product state after running `tryDecrement` once per user id, in order. -/
def runDecrements (st : ProductState) (userIds : List String) : ProductState :=
  match userIds with
  | [] => st
  | u :: us => runDecrements (tryDecrement st u).2 us

/-- The script results, in order, along a linearized history. -/
def runResults (st : ProductState) (userIds : List String) : List (Int × Int) :=
  match userIds with
  | [] => []
  | u :: us =>
      let r := tryDecrement st u
      r.1 :: runResults r.2 us

/-- The user ids whose attempt succeeded (`success = 1`), in the order in
which their decrements succeeded, along a linearized history. -/
def succUsers (st : ProductState) (userIds : List String) : List String :=
  match userIds with
  | [] => []
  | u :: us =>
      let r := tryDecrement st u
      if r.1.1 = 1 then u :: succUsers r.2 us else succUsers r.2 us

/-- Number of `decremented=true` outcomes along a linearized history. -/
def countSuccesses (st : ProductState) (userIds : List String) : Nat :=
  (succUsers st userIds).length

/-- The remaining-stock values returned by the successful attempts, in
order, along a linearized history (each names the stock unit consumed). -/
def succRemainders (st : ProductState) (userIds : List String) : List Int :=
  (runResults st userIds).filterMap (fun r => if r.1 = 1 then some r.2 else none)

end FlashSale

namespace FlashSale

/-! Helper lemmas shared by the claim theorems. -/

/-- Decoding the four big-endian bytes of a `uint32` value recovers it. -/
theorem decodeBE32_be32 (n : Nat) (h : n < 4294967296) :
    decodeBE32 (n / 16777216 % 256) (n / 65536 % 256) (n / 256 % 256) (n % 256) = n := by
  unfold decodeBE32
  omega

/-- Reading back an encoded frame yields the type, the payload and the
unconsumed rest of the stream, whenever the payload is within the 1 MiB
bound. -/
theorem readFrame_writeFrame (t : Nat) (p rest : List Nat)
    (h : p.length ≤ 1024 * 1024) :
    readFrame (writeFrame t p ++ rest) = .ok (t, p, rest) := by
  have hmod : p.length % 4294967296 = p.length := Nat.mod_eq_of_lt (by omega)
  have hdec := decodeBE32_be32 p.length (by omega)
  simp only [writeFrame, be32, hmod, List.cons_append, List.nil_append,
    List.append_assoc]
  simp only [readFrame, hdec]
  rw [if_neg (by omega), if_neg (by simp), List.take_left, List.drop_left]

end FlashSale

namespace FlashSale

/-- Along any linearized history, the buyers list after the run is the
reverse of the chronological list of successful user ids, prepended to the
buyers already recorded ( `LPUSH` prepends). -/
theorem runDecrements_buyers_eq (us : List String) (st : ProductState) :
    (runDecrements st us).buyers = (succUsers st us).reverse ++ st.buyers := by
  induction us generalizing st with
  | nil => simp [runDecrements, succUsers]
  | cons u us ih =>
      cases hst : st.stock with
      | none =>
          simp [runDecrements, succUsers, tryDecrement, hst, ih]
      | some n =>
          by_cases hn : n > 0
          · simp [runDecrements, succUsers, tryDecrement, hst, hn, ih]
          · simp [runDecrements, succUsers, tryDecrement, hst, hn, ih]

/-- Along any linearized history starting from an existing stock counter
`n ≥ 0`, the run ends with an existing stock counter `m` with
`0 ≤ m ≤ n` and `m + number of successes = n`. -/
theorem runDecrements_stock (us : List String) (st : ProductState) (n : Int)
    (hst : st.stock = some n) (hn : 0 ≤ n) :
    ∃ m : Int, 0 ≤ m ∧ m ≤ n ∧ (runDecrements st us).stock = some m ∧
      m + ((succUsers st us).length : Int) = n := by
  induction us generalizing st n with
  | nil =>
      exact ⟨n, hn, le_refl n, by simpa [runDecrements] using hst, by simp [succUsers]⟩
  | cons u us ih =>
      by_cases hpos : n > 0
      · have hstep :
            tryDecrement st u
              = ((1, n - 1), { stock := some (n - 1), buyers := u :: st.buyers }) := by
          simp [tryDecrement, hst, hpos]
        obtain ⟨m, hm0, hmle, hs, heq⟩ :=
          ih { stock := some (n - 1), buyers := u :: st.buyers } (n - 1) rfl (by omega)
        refine ⟨m, hm0, by omega, ?_, ?_⟩
        · simpa [runDecrements, hstep] using hs
        · have : succUsers st (u :: us)
              = u :: succUsers { stock := some (n - 1), buyers := u :: st.buyers } us := by
            simp [succUsers, hstep]
          rw [this]
          simp only [List.length_cons]
          push_cast
          omega
      · have hstep : tryDecrement st u = ((0, 0), st) := by
          simp [tryDecrement, hst, hpos]
        obtain ⟨m, hm0, hmle, hs, heq⟩ := ih st n hst hn
        refine ⟨m, hm0, hmle, ?_, ?_⟩
        · simpa [runDecrements, hstep] using hs
        · have : succUsers st (u :: us) = succUsers st us := by
            simp [succUsers, hstep]
          rw [this]
          exact heq

/-- Every remaining-stock value a successful attempt returns is strictly
below the stock at the start of the history. -/
theorem succRemainders_lt (us : List String) (st : ProductState) (n : Int)
    (hst : st.stock = some n) :
    ∀ x ∈ succRemainders st us, x < n := by
  induction us generalizing st n with
  | nil => simp [succRemainders, runResults]
  | cons u us ih =>
      by_cases hpos : n > 0
      · have hstep :
            tryDecrement st u
              = ((1, n - 1), { stock := some (n - 1), buyers := u :: st.buyers }) := by
          simp [tryDecrement, hst, hpos]
        intro x hx
        simp [succRemainders, runResults, hstep, List.filterMap_cons] at hx
        rcases hx with hx | hx
        · omega
        · have := ih { stock := some (n - 1), buyers := u :: st.buyers } (n - 1) rfl x
            (by simpa [succRemainders] using hx)
          omega
      · have hstep : tryDecrement st u = ((0, 0), st) := by
          simp [tryDecrement, hst, hpos]
        intro x hx
        simp only [succRemainders, runResults, hstep, List.filterMap_cons] at hx
        have h01 : ((0 : Int) = 1) = False := by simp
        simp only [h01, if_false] at hx
        exact ih st n hst x (by simpa [succRemainders] using hx)

/-- The remaining-stock values of the successful attempts are strictly
decreasing along the history: no stock unit is handed out twice. -/
theorem succRemainders_pairwise (us : List String) (st : ProductState) :
    (succRemainders st us).Pairwise (· > ·) := by
  induction us generalizing st with
  | nil => simp [succRemainders, runResults]
  | cons u us ih =>
      cases hst : st.stock with
      | none =>
          have hstep : tryDecrement st u = ((0, 0), st) := by
            simp [tryDecrement, hst]
          have : succRemainders st (u :: us) = succRemainders st us := by
            simp only [succRemainders, runResults, hstep, List.filterMap_cons]
            simp
          rw [this]
          exact ih st
      | some n =>
          by_cases hpos : n > 0
          · have hstep :
                tryDecrement st u
                  = ((1, n - 1), { stock := some (n - 1), buyers := u :: st.buyers }) := by
              simp [tryDecrement, hst, hpos]
            have hrw : succRemainders st (u :: us)
                = (n - 1)
                  :: succRemainders { stock := some (n - 1), buyers := u :: st.buyers } us := by
              simp only [succRemainders, runResults, hstep, List.filterMap_cons]
              simp
            rw [hrw]
            refine List.Pairwise.cons ?_ (ih _)
            intro x hx
            exact succRemainders_lt us _ (n - 1) rfl x hx
          · have hstep : tryDecrement st u = ((0, 0), st) := by
              simp [tryDecrement, hst, hpos]
            have : succRemainders st (u :: us) = succRemainders st us := by
              simp only [succRemainders, runResults, hstep, List.filterMap_cons]
              simp
            rw [this]
            exact ih st

end FlashSale

namespace FlashSale

/-- Claim C5: for every type byte and every payload of length at most
1 MiB, decoding the byte sequence produced by the frame encoder
(`[type 1B][length 4B big-endian][payload]`) yields back exactly the same
type byte and exactly the same payload bytes. -/
theorem frame_roundtrip (t : Nat) (p rest : List Nat)
    (h : p.length ≤ 1024 * 1024) :
    readFrame (writeFrame t p ++ rest) = .ok (t, p, rest) :=
  readFrame_writeFrame t p rest h

/-- Witness for C5 at type byte `1`, payload `[42]`, trailing stream `[7]`. -/
theorem frame_roundtrip_witness :
    ([42] : List Nat).length ≤ 1024 * 1024
      ∧ readFrame (writeFrame 1 [42] ++ [7]) = .ok (1, [42], [7]) :=
  ⟨by decide, frame_roundtrip 1 [42] [7] (by decide)⟩

/-- Claim C6: a frame whose declared payload length exceeds 1 MiB makes
`readFrame` fail with the oversized-frame error, and the connection handler
closes the connection without writing any response frame and without
touching the store. -/
theorem oversized_frame_closes_connection
    (unmarshal : List Nat → Option PurchaseRequest) (store : Store)
    (t b0 b1 b2 b3 : Nat) (rest : List Nat)
    (h : decodeBE32 b0 b1 b2 b3 > 1024 * 1024) :
    readFrame (t :: b0 :: b1 :: b2 :: b3 :: rest)
        = .error (.payloadTooLarge (decodeBE32 b0 b1 b2 b3))
      ∧ handleConnection unmarshal store (t :: b0 :: b1 :: b2 :: b3 :: rest)
        = (.closed, store) := by
  have hr : readFrame (t :: b0 :: b1 :: b2 :: b3 :: rest)
      = .error (.payloadTooLarge (decodeBE32 b0 b1 b2 b3)) := by
    simp only [readFrame]
    rw [if_pos h]
  exact ⟨hr, by simp only [handleConnection, hr]⟩

/-- Witness for C6: declared length `0xFF000000` on an empty remainder. -/
theorem oversized_frame_closes_connection_witness :
    decodeBE32 255 0 0 0 > 1024 * 1024
      ∧ readFrame [9, 255, 0, 0, 0] = .error (.payloadTooLarge (decodeBE32 255 0 0 0))
      ∧ handleConnection (fun _ => none) emptyStore [9, 255, 0, 0, 0]
        = (.closed, emptyStore) := by
  refine ⟨by decide, ?_, ?_⟩
  · exact (oversized_frame_closes_connection (fun _ => none) emptyStore
      9 255 0 0 0 [] (by decide)).1
  · exact (oversized_frame_closes_connection (fun _ => none) emptyStore
      9 255 0 0 0 [] (by decide)).2

/-- Claim C9: a well-formed frame whose type byte is not `0x01`
(`MSG_ATTEMPT_PURCHASE`) is answered with `ERROR{"unknown message type"}`
in a frame carrying the same type byte (the response frame's first byte is
the request's type), the store is untouched, and the connection handler
continues with the rest of the input instead of closing. -/
theorem unknown_type_echoed_error
    (unmarshal : List Nat → Option PurchaseRequest) (store : Store)
    (t : Nat) (payload rest : List Nat)
    (ht : t ≠ MSG_ATTEMPT_PURCHASE) (hlen : payload.length ≤ 1024 * 1024) :
    processMessage unmarshal store t payload
        = (strBytes (marshalResponse
            { status := STATUS_ERROR, error := "unknown message type" }), store)
      ∧ handleConnection unmarshal store (writeFrame t payload ++ rest)
        = (.replied (writeFrame t (strBytes (marshalResponse
            { status := STATUS_ERROR, error := "unknown message type" }))) rest, store)
      ∧ (writeFrame t (strBytes (marshalResponse
            { status := STATUS_ERROR, error := "unknown message type" }))).head? = some t := by
  have hp : processMessage unmarshal store t payload
      = (strBytes (marshalResponse
          { status := STATUS_ERROR, error := "unknown message type" }), store) := by
    simp only [processMessage]
    rw [if_neg ht]
  refine ⟨hp, ?_, rfl⟩
  simp only [handleConnection, readFrame_writeFrame t payload rest hlen, hp]

/-- Witness for C9 at type byte `2` with an empty payload. -/
theorem unknown_type_echoed_error_witness :
    (2 ≠ MSG_ATTEMPT_PURCHASE
        ∧ ([] : List Nat).length ≤ 1024 * 1024)
      ∧ handleConnection (fun _ => none) emptyStore (writeFrame 2 [] ++ [])
        = (.replied (writeFrame 2 (strBytes (marshalResponse
            { status := STATUS_ERROR, error := "unknown message type" }))) [], emptyStore) :=
  ⟨⟨by decide, by decide⟩,
    (unknown_type_echoed_error (fun _ => none) emptyStore 2 [] []
      (by decide) (by decide)).2.1⟩

end FlashSale

namespace FlashSale

/-- Claim C4: a purchase request in which `product_id` or `user_id` is the
empty string yields `ERROR{"missing product_id or user_id"}` and the store
(every product's stock counter and buyer ledger) is returned completely
unchanged. -/
theorem missing_fields_error_leaves_store
    (store : Store) (req : PurchaseRequest)
    (h : req.productID = "" ∨ req.userID = "") :
    attemptPurchase store req
      = ({ status := STATUS_ERROR, error := "missing product_id or user_id" }, store) := by
  simp only [attemptPurchase]
  rw [if_pos h]

/-- Witness for C4: the spec scenario `{"product_id":"","user_id":"u1"}`. -/
theorem missing_fields_error_leaves_store_witness :
    (("" : String) = "" ∨ ("u1" : String) = "")
      ∧ attemptPurchase emptyStore { productID := "", userID := "u1" }
        = ({ status := STATUS_ERROR, error := "missing product_id or user_id" },
           emptyStore) :=
  ⟨Or.inl rfl,
    missing_fields_error_leaves_store emptyStore
      { productID := "", userID := "u1" } (Or.inl rfl)⟩

/-- Claim C3: for every validated request (both fields non-empty), the
atomic operation and its mapping behave exactly as specified: with current
stock `n > 0` the stock becomes `n - 1`, the user id is recorded in the
buyer ledger, and the response is `SUCCESS` with `remaining_stock = n - 1`;
with `n ≤ 0`, and likewise with no stock counter at all, the store is
unchanged and the response is `SOLD_OUT`. -/
theorem attemptPurchase_maps_atomic_result
    (store : Store) (req : PurchaseRequest)
    (hp : req.productID ≠ "") (hu : req.userID ≠ "") :
    (∀ n : Int, (store req.productID).stock = some n → 0 < n →
        attemptPurchase store req
          = ({ status := STATUS_SUCCESS, remainingStock := n - 1 },
             Function.update store req.productID
               { stock := some (n - 1),
                 buyers := req.userID :: (store req.productID).buyers }))
      ∧ (∀ n : Int, (store req.productID).stock = some n → ¬ 0 < n →
          attemptPurchase store req = ({ status := STATUS_SOLD_OUT }, store))
      ∧ ((store req.productID).stock = none →
          attemptPurchase store req = ({ status := STATUS_SOLD_OUT }, store)) := by
  have hv : ¬ (req.productID = "" ∨ req.userID = "") := by simp [hp, hu]
  refine ⟨?_, ?_, ?_⟩
  · intro n hn hpos
    have hstep : tryDecrement (store req.productID) req.userID
        = ((1, n - 1),
           { stock := some (n - 1),
             buyers := req.userID :: (store req.productID).buyers }) := by
      simp [tryDecrement, hn, hpos]
    simp [attemptPurchase, evalTryDecrement, hv, hstep]
  · intro n hn hpos
    simp [attemptPurchase, evalTryDecrement, tryDecrement, hv, hn, hpos]
  · intro hn
    simp [attemptPurchase, evalTryDecrement, tryDecrement, hv, hn]

end FlashSale

namespace FlashSale

/-- Witness for C3: product `"p"` with stock 2, buyer `"u"`: the attempt
succeeds, the stock drops to 1, `"u"` enters the ledger, and the response
is `SUCCESS{remaining_stock=1}`. -/
theorem attemptPurchase_maps_atomic_result_witness :
    (("p" : String) ≠ "" ∧ ("u" : String) ≠ "")
      ∧ attemptPurchase (fun _ => { stock := some 2, buyers := [] })
          { productID := "p", userID := "u" }
        = ({ status := STATUS_SUCCESS, remainingStock := 1 },
           Function.update (fun _ => { stock := some 2, buyers := [] }) "p"
             { stock := some 1, buyers := ["u"] }) :=
  ⟨⟨by decide, by decide⟩,
    (attemptPurchase_maps_atomic_result
        (fun _ => { stock := some 2, buyers := [] })
        { productID := "p", userID := "u" }
        (by decide) (by decide)).1 2 rfl (by decide)⟩

/-- Claim C10: a validated request naming a product with no stock counter
(never initialized, or deleted by reset) makes the atomic operation return
`{0, 0}` without touching the state, and the response is `SOLD_OUT` with
the store unchanged — indistinguishable from a sold-out product and never
an `ERROR`. A reset product is such a product: `resetProduct` deletes both
keys. -/
theorem missing_product_sold_out
    (store : Store) (req : PurchaseRequest)
    (hp : req.productID ≠ "") (hu : req.userID ≠ "")
    (hs : (store req.productID).stock = none) :
    tryDecrement (store req.productID) req.userID = ((0, 0), store req.productID)
      ∧ attemptPurchase store req = ({ status := STATUS_SOLD_OUT }, store)
      ∧ resetProduct store req.productID req.productID
        = { stock := none, buyers := [] } := by
  have hv : ¬ (req.productID = "" ∨ req.userID = "") := by simp [hp, hu]
  have hstep : tryDecrement (store req.productID) req.userID
      = ((0, 0), store req.productID) := by
    simp [tryDecrement, hs]
  refine ⟨hstep, ?_, ?_⟩
  · simp [attemptPurchase, evalTryDecrement, hv, hstep]
  · simp [resetProduct]

/-- Witness for C10: the empty store (product `"p"` never initialized). -/
theorem missing_product_sold_out_witness :
    (("p" : String) ≠ "" ∧ ("u1" : String) ≠ ""
        ∧ (emptyStore "p").stock = none)
      ∧ tryDecrement (emptyStore "p") "u1" = ((0, 0), emptyStore "p")
      ∧ attemptPurchase emptyStore { productID := "p", userID := "u1" }
        = ({ status := STATUS_SOLD_OUT }, emptyStore)
      ∧ resetProduct emptyStore "p" "p" = { stock := none, buyers := [] } :=
  ⟨⟨by decide, by decide, rfl⟩,
    missing_product_sold_out emptyStore { productID := "p", userID := "u1" }
      (by decide) (by decide) rfl⟩

end FlashSale

namespace FlashSale

/-- Claim C1: for a product with initial stock `N` (so a state whose stock
counter is `N` minus the number of recorded buyers, with at most `N`
buyers), the invariant `remaining_stock + len(buyer_ledger) = N` is
preserved by every execution of the atomic operation: a successful
decrement lowers the stock by exactly one and prepends exactly one ledger
entry, an unsuccessful one changes nothing; along any run the invariant
keeps holding, the ledger never exceeds `N` entries, and the ledger grows
by exactly the number of `decremented=true` outcomes. -/
theorem tryDecrement_preserves_invariant
    (N : Int) (st : ProductState) (u : String) (us : List String)
    (hst : st.stock = some (N - (st.buyers.length : Int)))
    (hle : (st.buyers.length : Int) ≤ N) :
    ((tryDecrement st u).1.1 = 1 →
        (tryDecrement st u).2.buyers = u :: st.buyers
          ∧ (tryDecrement st u).2.stock
            = some (N - ((u :: st.buyers).length : Int)))
      ∧ ((tryDecrement st u).1.1 ≠ 1 → (tryDecrement st u).2 = st)
      ∧ (runDecrements st us).stock
        = some (N - ((runDecrements st us).buyers.length : Int))
      ∧ ((runDecrements st us).buyers.length : Int) ≤ N
      ∧ (runDecrements st us).buyers.length
        = countSuccesses st us + st.buyers.length := by
  have hn0 : (0 : Int) ≤ N - (st.buyers.length : Int) := by omega
  obtain ⟨m, hm0, hmle, hs, heq⟩ := runDecrements_stock us st _ hst hn0
  have hbl : (runDecrements st us).buyers
      = (succUsers st us).reverse ++ st.buyers := runDecrements_buyers_eq us st
  have hlen : (runDecrements st us).buyers.length
      = (succUsers st us).length + st.buyers.length := by
    simp [hbl]
  refine ⟨?_, ?_, ?_, ?_, ?_⟩
  · intro hsucc
    by_cases hpos : N - (st.buyers.length : Int) > 0
    · have hstep : tryDecrement st u
          = ((1, N - (st.buyers.length : Int) - 1),
             { stock := some (N - (st.buyers.length : Int) - 1),
               buyers := u :: st.buyers }) := by
        simp [tryDecrement, hst, hpos]
      rw [hstep]
      refine ⟨rfl, ?_⟩
      have hc : N - (((u :: st.buyers).length : Nat) : Int)
          = N - (st.buyers.length : Int) - 1 := by
        simp only [List.length_cons]
        push_cast
        ring
      rw [hc]
    · have hstep : tryDecrement st u = ((0, 0), st) := by
        simp [tryDecrement, hst, hpos]
      rw [hstep] at hsucc
      norm_num at hsucc
  · intro hfail
    by_cases hpos : N - (st.buyers.length : Int) > 0
    · have hstep : tryDecrement st u
          = ((1, N - (st.buyers.length : Int) - 1),
             { stock := some (N - (st.buyers.length : Int) - 1),
               buyers := u :: st.buyers }) := by
        simp [tryDecrement, hst, hpos]
      rw [hstep] at hfail
      norm_num at hfail
    · have hstep : tryDecrement st u = ((0, 0), st) := by
        simp [tryDecrement, hst, hpos]
      rw [hstep]
  · rw [hs]
    congr 1
    rw [hlen]
    push_cast
    omega
  · rw [hlen]
    push_cast
    omega
  · rw [hlen]
    simp [countSuccesses]

end FlashSale

namespace FlashSale

/-- Witness for C1: initial stock 2, empty ledger, one step by `"u1"` and a
run of three attempts (only two can succeed). -/
theorem tryDecrement_preserves_invariant_witness :
    ((⟨some 2, []⟩ : ProductState).stock
          = some (2 - (([] : List String).length : Int))
        ∧ (([] : List String).length : Int) ≤ 2)
      ∧ ((tryDecrement ⟨some 2, []⟩ "u1").2.buyers = ["u1"]
        ∧ (tryDecrement ⟨some 2, []⟩ "u1").2.stock
          = some (2 - ((["u1"] : List String).length : Int)))
      ∧ (runDecrements ⟨some 2, []⟩ ["u1", "u2", "u3"]).stock
        = some (2 - ((runDecrements ⟨some 2, []⟩ ["u1", "u2", "u3"]).buyers.length : Int))
      ∧ ((runDecrements ⟨some 2, []⟩ ["u1", "u2", "u3"]).buyers.length : Int) ≤ 2
      ∧ (runDecrements ⟨some 2, []⟩ ["u1", "u2", "u3"]).buyers.length
        = countSuccesses ⟨some 2, []⟩ ["u1", "u2", "u3"] + ([] : List String).length := by
  have h := tryDecrement_preserves_invariant 2 ⟨some 2, []⟩ "u1" ["u1", "u2", "u3"]
    (by decide) (by decide)
  exact ⟨⟨by decide, by decide⟩, h.1 (by decide), h.2.2.1, h.2.2.2.1, h.2.2.2.2⟩

/-- Claim C2: with the store executing the script atomically, every
concurrent history of check-and-decrement invocations for one product —
from any number of connections and server processes — linearizes to a
sequence of `tryDecrement` steps; over every such sequence starting from
initial stock `N ≥ 0`, the remaining-stock values returned to successful
callers are strictly decreasing (no two callers ever observe a decrement
of the same unit of stock), and the total number of `decremented=true`
outcomes over the product's lifetime never exceeds `N`. -/
theorem linearized_no_oversell
    (N : Int) (initialBuyers : List String) (us : List String) (hN : 0 ≤ N) :
    ((countSuccesses { stock := some N, buyers := initialBuyers } us : Int) ≤ N)
      ∧ (succRemainders { stock := some N, buyers := initialBuyers } us).Pairwise (· > ·) := by
  constructor
  · obtain ⟨m, hm0, hmle, hs, heq⟩ :=
      runDecrements_stock us { stock := some N, buyers := initialBuyers } N rfl hN
    simp only [countSuccesses]
    omega
  · exact succRemainders_pairwise us { stock := some N, buyers := initialBuyers }

/-- Witness for C2: stock 2 and three attempts — two successes, returned
remainders `[1, 0]`, strictly decreasing. -/
theorem linearized_no_oversell_witness :
    (0 : Int) ≤ 2
      ∧ ((countSuccesses { stock := some 2, buyers := [] } ["a", "b", "c"] : Int) ≤ 2
        ∧ (succRemainders { stock := some 2, buyers := [] } ["a", "b", "c"]).Pairwise (· > ·)) :=
  ⟨by decide, linearized_no_oversell 2 [] ["a", "b", "c"] (by decide)⟩

end FlashSale

namespace FlashSale

/-- Counterexample to C7 as stated: on stock 1 the first attempt does
return `SUCCESS` with remaining stock 0, but because `RemainingStock`
carries `omitempty` its serialized payload is exactly
`{"status":"SUCCESS"}` — it does not carry `remaining_stock=0` (the field
name does not even occur in the payload). -/
theorem success_zero_stock_serialized_omits_field :
    (attemptPurchase (initProduct emptyStore "p" 1)
        { productID := "p", userID := "u1" }).1
      = { status := STATUS_SUCCESS, remainingStock := 0, error := "" }
      ∧ marshalResponse (attemptPurchase (initProduct emptyStore "p" 1)
          { productID := "p", userID := "u1" }).1
        = "\x7b\"status\":\"SUCCESS\"\x7d"
      ∧ containsPat (marshalResponse (attemptPurchase (initProduct emptyStore "p" 1)
            { productID := "p", userID := "u1" }).1).toList
          "remaining_stock".toList = false := by
  decide

/-- Amended C7: starting from stock 1, two sequential attempts by the same
`user_id` give first a `SUCCESS` response whose remaining-stock value is 0
— serialized, because of `omitempty`, as `{"status":"SUCCESS"}` with the
`remaining_stock` field omitted — and then a `SOLD_OUT` response; the same
user id is not deduplicated: on stock 2 the same user succeeds twice. -/
theorem stock_one_sequential_attempts :
    (attemptPurchase (initProduct emptyStore "p" 1)
        { productID := "p", userID := "u1" }).1
      = { status := STATUS_SUCCESS, remainingStock := 0, error := "" }
      ∧ marshalResponse (attemptPurchase (initProduct emptyStore "p" 1)
          { productID := "p", userID := "u1" }).1
        = "\x7b\"status\":\"SUCCESS\"\x7d"
      ∧ (attemptPurchase (attemptPurchase (initProduct emptyStore "p" 1)
            { productID := "p", userID := "u1" }).2
          { productID := "p", userID := "u1" }).1
        = { status := STATUS_SOLD_OUT, remainingStock := 0, error := "" }
      ∧ (attemptPurchase (initProduct emptyStore "p" 2)
          { productID := "p", userID := "u1" }).1.status = STATUS_SUCCESS
      ∧ (attemptPurchase (attemptPurchase (initProduct emptyStore "p" 2)
            { productID := "p", userID := "u1" }).2
          { productID := "p", userID := "u1" }).1.status = STATUS_SUCCESS := by
  decide

/-- Counterexample to C8 as stated: on stock 2, `"u1"` succeeds first and
`"u2"` second, yet `list_buyers` reports `["u2", "u1"]` — the most recent
successful buyer first, not the first successful buyer first. -/
theorem listBuyers_not_chronological :
    (attemptPurchase (initProduct emptyStore "p" 2)
        { productID := "p", userID := "u1" }).1.status = STATUS_SUCCESS
      ∧ (attemptPurchase (attemptPurchase (initProduct emptyStore "p" 2)
            { productID := "p", userID := "u1" }).2
          { productID := "p", userID := "u2" }).1.status = STATUS_SUCCESS
      ∧ listBuyers (attemptPurchase (attemptPurchase (initProduct emptyStore "p" 2)
            { productID := "p", userID := "u1" }).2
          { productID := "p", userID := "u2" }).2 "p" = ["u2", "u1"]
      ∧ listBuyers (attemptPurchase (attemptPurchase (initProduct emptyStore "p" 2)
            { productID := "p", userID := "u1" }).2
          { productID := "p", userID := "u2" }).2 "p" ≠ ["u1", "u2"] := by
  decide

/-- Amended C8: the buyer ledger is prepend-only (`LPUSH`), so after any
sequence of attempts the ledger — what `list_buyers` returns front to back
— is the reverse of the chronological order of successful decrements (most
recent successful buyer first), on top of whatever it held before. -/
theorem buyers_reverse_of_success_order
    (st : ProductState) (us : List String) (store : Store) (pid : String) :
    (runDecrements st us).buyers = (succUsers st us).reverse ++ st.buyers
      ∧ listBuyers store pid = (store pid).buyers :=
  ⟨runDecrements_buyers_eq us st, rfl⟩

end FlashSale
